import Mathlib

/-!
Verification of the Panasonic H&C BLE protocol codec and session layer
(`custom_components/panasonic_hc/panasonic_hc_proto.py` and
`custom_components/panasonic_hc/panasonic_hc.py`).

Bytes are modelled as `Nat` (all wire values stay below 256; the 8-bit
checksum applies `% 256` exactly where the source does, and XOR of bytes
never leaves the byte range).  Fallible Python code (IndexError,
ValueError, TypeError, OverflowError, checksum failures) is modelled with
`Except PErr`.  Temperatures, computed by Python float division of small
integers by 2, and by 10, are modelled exactly as rationals.
-/

namespace PanasonicHC

/-- Error kinds surfaced by the Python source: list/stream index errors,
the explicit `ValueError("Bad Checksum")`, other `ValueError`s (bad enum
value, `bytes([x])` range, `ValueError("Bad packet")`), the `TypeError`
raised by the broken outdoor-temperature constructor, and `OverflowError`
from `int.to_bytes()` on values above 255. -/
inductive PErr
| indexError
| badChecksum
| valueError
| typeError
| overflowError
deriving DecidableEq, Repr

/-- Embedding of `_cksum`: 8-bit wraparound sum of the bytes. -/
def _cksum (data : List Nat) : Nat :=
  data.foldl (fun c i => (c + i) % 256) 0

/-- The forward XOR chain of `_encode`'s middle loop: each output byte is
the input byte XORed with the previous *output* byte (`prev` is the
output byte to the left; the head byte is passed through via `prev = 0`
because the source's loop starts at index 1). -/
def chainF : Nat → List Nat → List Nat
| _, [] => []
| prev, x :: xs => (x ^^^ prev) :: chainF (x ^^^ prev) xs

/-- The backward loop of `_decode`: each output byte is the input byte
XORed with the previous *input* byte (the loop runs from the top index
down to 1, so every `data[x] ^= data[x - 1]` reads an unmodified
`data[x - 1]`; the head byte is passed through via `prev = 0`). -/
def chainB : Nat → List Nat → List Nat
| _, [] => []
| prev, x :: xs => (x ^^^ prev) :: chainB x xs

/-- The pure part of `_decode`: XOR every byte with 105, undo the chain,
XOR the head byte with 202.  (An empty list stays empty; `_decode`
rejects it before reaching this point.) -/
def decodePlain (data : List Nat) : List Nat :=
  match chainB 0 (data.map (fun b => b ^^^ 105)) with
  | [] => []
  | d0 :: rest => (d0 ^^^ 202) :: rest

/-- Embedding of `_decode`: de-whiten, undo the chain, fix the head byte,
then compare the checksum of `data[1:-1]` against `data[-1]`
(`ValueError("Bad Checksum")` on mismatch).  On the empty buffer the
source reaches `data[0]` and raises IndexError. -/
def _decode (data : List Nat) : Except PErr (List Nat) :=
  match data with
  | [] => .error .indexError
  | _ :: _ =>
    let d := decodePlain data
    if _cksum d.tail.dropLast = d.getLastD 0 then .ok d
    else .error .badChecksum

/-- The source's `data[-1] = _cksum(data[1:-1])` assignment. -/
def setCk (data : List Nat) : List Nat :=
  data.dropLast ++ [_cksum data.tail.dropLast]

/-- Embedding of `_encode`: store the checksum in the last byte, XOR the
head byte with 202, run the forward chain, whiten every byte with 105.
On the empty buffer the source reaches `data[-1]` and raises
IndexError. -/
def _encode (data : List Nat) : Except PErr (List Nat) :=
  match data with
  | [] => .error .indexError
  | _ :: _ =>
    let d :=
      match setCk data with
      | [] => []
      | d0 :: rest => chainF 0 ((d0 ^^^ 202) :: rest)
    .ok (d.map (fun b => b ^^^ 105))

/-- The `MODE` enumeration of the source. -/
inductive MODE
| heat
| cool
| fan_only
| dry
| auto
deriving DecidableEq, Repr

/-- Numeric value of each `MODE` member. -/
def MODE.val : MODE → Nat
| .heat => 1
| .cool => 2
| .fan_only => 3
| .dry => 4
| .auto => 5

/-- Python `MODE(v)`: value lookup, `ValueError` when `v` is not a member
value. -/
def MODE.fromVal : Nat → Except PErr MODE
| 1 => .ok .heat
| 2 => .ok .cool
| 3 => .ok .fan_only
| 4 => .ok .dry
| 5 => .ok .auto
| _ => .error .valueError

/-- The `FANSPEED` enumeration of the source. -/
inductive FANSPEED
| auto
| high
| medium
| low
deriving DecidableEq, Repr

/-- Numeric value of each `FANSPEED` member. -/
def FANSPEED.val : FANSPEED → Nat
| .auto => 2
| .high => 3
| .medium => 4
| .low => 5

/-- Python `FANSPEED(v)`: value lookup, `ValueError` on non-members. -/
def FANSPEED.fromVal : Nat → Except PErr FANSPEED
| 2 => .ok .auto
| 3 => .ok .high
| 4 => .ok .medium
| 5 => .ok .low
| _ => .error .valueError

/-- The `COMPONENT` enumeration (parcel addressing). -/
inductive COMPONENT
| I_UNIT1
| O_UNIT1
| ALL_UNITS
| APP
| BLE_MODULE_UART
deriving DecidableEq, Repr

/-- Numeric value of each `COMPONENT` member. -/
def COMPONENT.val : COMPONENT → Nat
| .I_UNIT1 => 1
| .O_UNIT1 => 9
| .ALL_UNITS => 247
| .APP => 249
| .BLE_MODULE_UART => 254

/-- Python `COMPONENT(v)`: value lookup, `ValueError` on non-members. -/
def COMPONENT.fromVal : Nat → Except PErr COMPONENT
| 1 => .ok .I_UNIT1
| 9 => .ok .O_UNIT1
| 247 => .ok .ALL_UNITS
| 249 => .ok .APP
| 254 => .ok .BLE_MODULE_UART
| _ => .error .valueError

/-- The `OPERATION` enumeration. -/
inductive OPERATION
| SET
| SET_RES
| REQ
| REQ_RES
| NOTIFY
deriving DecidableEq, Repr

/-- Numeric value of each `OPERATION` member. -/
def OPERATION.val : OPERATION → Nat
| .SET => 0
| .SET_RES => 1
| .REQ => 2
| .REQ_RES => 3
| .NOTIFY => 4

/-- Python `OPERATION(v)`: value lookup, `ValueError` on non-members. -/
def OPERATION.fromVal : Nat → Except PErr OPERATION
| 0 => .ok .SET
| 1 => .ok .SET_RES
| 2 => .ok .REQ
| 3 => .ok .REQ_RES
| 4 => .ok .NOTIFY
| _ => .error .valueError

/-- Python `fd.read(1)[0]`: IndexError on an exhausted stream, otherwise
one byte and the remaining stream. -/
def read1 (s : List Nat) : Except PErr (Nat × List Nat) :=
  match s with
  | [] => .error .indexError
  | b :: rest => .ok (b, rest)

/-- Python `l[i]` for a non-negative index: IndexError out of range. -/
def listGet (l : List Nat) (i : Nat) : Except PErr Nat :=
  match l.get? i with
  | some v => .ok v
  | none => .error .indexError

/-- The attributes computed by `PanasonicBLEPacketStatus.__init__`.
`power` and `powersave` keep the raw Python ints (`pdata[0] & 1` and
`pdata[-6]`); Python truthiness reads them as booleans.  The two
temperatures are the exact values of the float divisions by 2. -/
structure StatusFields where
  power : Nat
  mode : MODE
  temp : ℚ
  fanspeed : FANSPEED
  powersave : Nat
  curtemp : ℚ
deriving DecidableEq, Repr

/-- Embedding of `PanasonicBLEPacketStatus.__init__` on the payload
bytes, in the source's statement order (`curtemp` defaults to 0 and is
only assigned for payloads longer than 12 bytes; the negative index
`pdata[-6]` needs at least 6 bytes). -/
def statusInit (pdata : List Nat) : Except PErr StatusFields := do
  let d0 ← listGet pdata 0
  let mode ← MODE.fromVal ((d0 >>> 5) &&& 7)
  let d4 ← listGet pdata 4
  let d1 ← listGet pdata 1
  let fanspeed ← FANSPEED.fromVal ((d1 >>> 5) &&& 7)
  let powersave ← if 6 ≤ pdata.length then listGet pdata (pdata.length - 6)
    else .error .indexError
  let curtemp ← if 12 < pdata.length then do
      let d5 ← listGet pdata 5
      pure (((d5 : ℚ) - 70) / 2)
    else pure (0 : ℚ)
  pure { power := d0 &&& 1, mode := mode, temp := ((d4 : ℚ) - 70) / 2,
         fanspeed := fanspeed, powersave := powersave, curtemp := curtemp }

/-- A parsed packet: the generic `PanasonicBLEPacket` (type byte and raw
payload bytes) or the `PanasonicBLEPacketStatus` subclass, which carries
the same two attributes plus the decoded status attributes.  The
`PanasonicBLEPacketOutdoorTemp` subclass never constructs successfully
(see `packetParse`), so it has no variant. -/
inductive PanaPacket
| generic (ptype : Nat) (pdata : List Nat)
| status (ptype : Nat) (pdata : List Nat) (fields : StatusFields)
deriving DecidableEq, Repr

/-- The `ptype` attribute of a packet. -/
def PanaPacket.ptype : PanaPacket → Nat
| .generic t _ => t
| .status t _ _ => t

/-- The `pdata` attribute of a packet. -/
def PanaPacket.pdata : PanaPacket → List Nat
| .generic _ d => d
| .status _ d _ => d

/-- True exactly on `PanasonicBLEPacketStatus` instances (the session
layer's `isinstance` test). -/
def PanaPacket.isStatus : PanaPacket → Bool
| .status _ _ _ => true
| .generic _ _ => false

/-- Embedding of `PanasonicBLEPacket.parse`: one type byte, one length
byte, then `fd.read(plen)` — which, like `io.BytesIO.read`, returns *up
to* `plen` bytes without complaint when fewer remain.  Type 129
dispatches to the status constructor; type 33 calls
`PanasonicBLEPacketOutdoorTemp(ptype, pdata)`, whose `__init__` accepts
no such arguments, so the call itself raises TypeError. -/
def packetParse (s : List Nat) : Except PErr (PanaPacket × List Nat) := do
  let (t, s1) ← read1 s
  let (plen, s2) ← read1 s1
  let pdata := s2.take plen
  let rest := s2.drop plen
  if t = 129 then do
    let f ← statusInit pdata
    pure (.status t pdata f, rest)
  else if t = 33 then .error .typeError
  else pure (.generic t pdata, rest)

/-- Embedding of `PanasonicBLEPacket.encode`: `int.to_bytes()` defaults
to a single byte and raises OverflowError above 255, both for the type
byte and for the payload length byte; then the payload verbatim. -/
def packetEncode (pk : PanaPacket) : Except PErr (List Nat) :=
  if 256 ≤ pk.ptype then .error .overflowError
  else if 256 ≤ pk.pdata.length then .error .overflowError
  else .ok (pk.ptype :: pk.pdata.length :: pk.pdata)

/-- A parsed/buildable parcel: addressing header plus packet list. -/
structure Parcel where
  src : COMPONENT
  dst : COMPONENT
  op : OPERATION
  packets : List PanaPacket
deriving DecidableEq, Repr

/-- The packet-parsing loop of `PanasonicBLEParcel.parse` (the list
comprehension over `range(num_packets)`). -/
def parsePackets : Nat → List Nat → Except PErr (List PanaPacket × List Nat)
| 0, s => .ok ([], s)
| n + 1, s => do
  let (pk, s1) ← packetParse s
  let (pks, s2) ← parsePackets n s1
  .ok (pk :: pks, s2)

/-- Embedding of `PanasonicBLEParcel.parse`: deobfuscate with `_decode`,
check the 0x11 sync byte (`ValueError("Bad packet")` otherwise), read
source, destination and operation through their enumerations, read the
packet count and parse exactly that many packets.  Trailing bytes
(including the checksum byte) are ignored. -/
def parcelParse (raw : List Nat) : Except PErr Parcel := do
  let d ← _decode raw
  let (sync, s1) ← read1 d
  if sync = 17 then do
    let (sv, s2) ← read1 s1
    let src ← COMPONENT.fromVal sv
    let (dv, s3) ← read1 s2
    let dst ← COMPONENT.fromVal dv
    let (ov, s4) ← read1 s3
    let op ← OPERATION.fromVal ov
    let (n, s5) ← read1 s4
    let (pks, _) ← parsePackets n s5
    pure { src := src, dst := dst, op := op, packets := pks }
  else .error .valueError

/-- The per-packet encoding loop of `PanasonicBLEParcel.encode`. -/
def encodePackets : List PanaPacket → Except PErr (List (List Nat))
| [] => .ok []
| pk :: pks => do
  let b ← packetEncode pk
  let bs ← encodePackets pks
  .ok (b :: bs)

/-- The plaintext buffer laid out by `PanasonicBLEParcel.encode` before
obfuscation: sync 0x11, the three addressing bytes, the packet count
(`len(packets).to_bytes()`, OverflowError above 255), the encoded
packets, and the 0x00 checksum placeholder. -/
def parcelBody (p : Parcel) : Except PErr (List Nat) :=
  if 256 ≤ p.packets.length then .error .overflowError
  else do
    let bs ← encodePackets p.packets
    .ok (17 :: p.src.val :: p.dst.val :: p.op.val :: p.packets.length :: (bs.flatten ++ [0]))

/-- Embedding of `PanasonicBLEParcel.encode`: lay out the plaintext
buffer, then obfuscate it with `_encode`. -/
def parcelEncode (p : Parcel) : Except PErr (List Nat) :=
  parcelBody p >>= _encode

/-- The `PanasonicBLEStatusReq` command builder. -/
def PanasonicBLEStatusReq : Parcel :=
  { src := .APP, dst := .I_UNIT1, op := .REQ, packets := [.generic 129 [4, 0, 14]] }

/-- The `PanasonicBLEMode` command builder. -/
def PanasonicBLEMode (mode : Nat) : Parcel :=
  { src := .APP, dst := .I_UNIT1, op := .SET, packets := [.generic 66 [mode]] }

/-- The `PanasonicBLEPower` command builder (`state + 2`: 2 off, 3 on). -/
def PanasonicBLEPower (state : Nat) : Parcel :=
  { src := .APP, dst := .I_UNIT1, op := .SET, packets := [.generic 65 [state + 2]] }

/-- Python `int(q)`: truncation toward zero. -/
def pyInt (q : ℚ) : Int :=
  Int.tdiv q.num (q.den : Int)

/-- Python `bytes([x])`: ValueError unless `0 ≤ x ≤ 255`. -/
def mkByte (x : Int) : Except PErr Nat :=
  if 0 ≤ x ∧ x < 256 then .ok x.toNat else .error .valueError

/-- Embedding of `PanasonicBLETemp`: `temp = int(temp * 2 + 70)` becomes
the third payload byte of a single type-76 packet; the only range
constraint is `bytes([temp])`'s own 0..255 check. -/
def PanasonicBLETemp (temp : ℚ) : Except PErr Parcel := do
  let t ← mkByte (pyInt (temp * 2 + 70))
  pure { src := .APP, dst := .I_UNIT1, op := .SET,
         packets := [PanaPacket.generic 76 [9, 0, t, 0]] }

/-- Modelled from the spec: `PanasonicBLEFanMode` is imported by the
session layer (`panasonic_hc.py`) but its class is missing from the
provided sources.  Per the spec's command table it builds a parcel
addressed APP → I_UNIT1 with operation SET and a single packet whose
one-byte payload is the numeric value of the target fan-speed member;
the spec leaves the packet type byte unspecified (its table entry for
the fan-speed row is a dash, and the accompanying notes flag the type
code as an open question), so the type byte is a parameter here. -/
def PanasonicBLEFanMode (ftype : Nat) (speed : FANSPEED) : Parcel :=
  { src := .APP, dst := .I_UNIT1, op := .SET, packets := [.generic ftype [speed.val]] }

/-- The session layer's `MIN_TEMP` constant. -/
def MIN_TEMP : Nat := 16

/-- The session layer's `MAX_TEMP` constant. -/
def MAX_TEMP : Nat := 32

/-- The `Status` snapshot cached by the session layer, field for field in
constructor order (`power`, `mode`, `powersave`, `curtemp`, `settemp`,
`fanspeed`). -/
structure Status where
  power : Nat
  mode : MODE
  powersave : Nat
  curtemp : ℚ
  settemp : ℚ
  fanspeed : FANSPEED
deriving DecidableEq, Repr

/-- Embedding of `PanasonicHC.on_notification`'s effect on the cached
status: parse the parcel and, for every status packet in order, replace
the snapshot; every exception is caught by the handler's blanket
`except Exception`, leaving the cache as it was.  Subscriber callbacks
do not touch the cache and are outside this model. -/
def onNotification (prev : Option Status) (data : List Nat) : Option Status :=
  match parcelParse data with
  | .error _ => prev
  | .ok parcel =>
    parcel.packets.foldl
      (fun st pk =>
        match pk with
        | .status _ _ f =>
          some { power := f.power, mode := f.mode, powersave := f.powersave,
                 curtemp := f.curtemp, settemp := f.temp, fanspeed := f.fanspeed }
        | .generic _ _ => st)
      prev

/-- Whether an `Except` value is a success. -/
def exOk {α : Type} : Except PErr α → Bool
| .ok _ => true
| .error _ => false

/-- Well-formedness of a packet for the round-trip statement: its two
header bytes fit in a byte, its payload is a byte string of at most 255
bytes, its type is not 33 (whose re-parse always raises TypeError), and
a type-129 payload is accepted by the status constructor. -/
def wfPacket (pk : PanaPacket) : Bool :=
  decide (pk.ptype < 256) && decide (pk.pdata.length ≤ 255) &&
  pk.pdata.all (fun b => decide (b < 256)) &&
  (pk.ptype != 33) && ((pk.ptype != 129) || exOk (statusInit pk.pdata))

instance excDecEq {ε α : Type} [DecidableEq ε] [DecidableEq α] : DecidableEq (Except ε α)
| .ok a, .ok b =>
  if h : a = b then .isTrue (by rw [h]) else .isFalse (by intro hc; cases hc; exact h rfl)
| .error e, .error f =>
  if h : e = f then .isTrue (by rw [h]) else .isFalse (by intro hc; cases hc; exact h rfl)
| .ok _, .error _ => .isFalse (by intro hc; cases hc)
| .error _, .ok _ => .isFalse (by intro hc; cases hc)

@[simp] theorem exc_bind_ok {α β : Type} (a : α) (f : α → Except PErr β) :
    (Except.ok a : Except PErr α) >>= f = f a := rfl

@[simp] theorem exc_bind_error {α β : Type} (e : PErr) (f : α → Except PErr β) :
    (Except.error e : Except PErr α) >>= f = .error e := rfl

@[simp] theorem exc_pure_eq {α : Type} (a : α) :
    (pure a : Except PErr α) = .ok a := rfl

theorem xor_xor_cancel (x p : Nat) : (x ^^^ p) ^^^ p = x := by
  simp [Nat.xor_assoc]

theorem xor_ne_self (z m : Nat) (hm : m ≠ 0) : z ^^^ m ≠ z := by
  intro hzm
  apply hm
  have hz : z ^^^ (z ^^^ m) = z ^^^ z := by rw [hzm]
  simpa [← Nat.xor_assoc] using hz

theorem xor_right_swap (a b c : Nat) : (a ^^^ b) ^^^ c = (a ^^^ c) ^^^ b := by
  rw [Nat.xor_assoc, Nat.xor_comm b c, ← Nat.xor_assoc]

/-- The backward loop inverts the forward chain. -/
theorem chainB_chainF (p : Nat) (l : List Nat) : chainB p (chainF p l) = l := by
  induction l generalizing p with
  | nil => rfl
  | cons x xs ih => simp [chainF, chainB, xor_xor_cancel, ih]

theorem map_xor_involutive (k : Nat) (l : List Nat) :
    (l.map (fun b => b ^^^ k)).map (fun b => b ^^^ k) = l := by
  induction l with
  | nil => rfl
  | cons a xs ih => simp [xor_xor_cancel, ih]

theorem tail_dropLast (l : List Nat) : l.tail.dropLast = l.dropLast.tail := by
  match l with
  | [] => rfl
  | [a] => rfl
  | a :: b :: ys => rfl

theorem getLastD_concat (l : List Nat) (a d : Nat) :
    (l ++ [a]).getLastD d = a := by
  simp [List.getLastD_eq_getLast?, List.getLast?_concat]

/-- The checksum stored by `setCk` verifies against the interior bytes. -/
theorem setCk_check (l : List Nat) :
    _cksum (setCk l).tail.dropLast = (setCk l).getLastD 0 := by
  match l with
  | [] => rfl
  | [x] => rfl
  | x :: y :: ys =>
    rw [setCk, getLastD_concat]
    have h1 : (x :: y :: ys).dropLast = x :: (y :: ys).dropLast := rfl
    rw [h1]
    have h2 : ((x :: (y :: ys).dropLast) ++ [_cksum (x :: y :: ys).tail.dropLast]).tail
        = (y :: ys).dropLast ++ [_cksum (x :: y :: ys).tail.dropLast] := rfl
    rw [h2, List.dropLast_concat]
    rfl

theorem setCk_ne_nil (l : List Nat) : setCk l ≠ [] := by
  simp [setCk]

/-- Round trip of the obfuscation transform: decoding an encoded buffer
succeeds and returns the input with its last byte replaced by the
checksum. -/
theorem decode_encode (l : List Nat) (hl : l ≠ []) :
    ∃ E, _encode l = .ok E ∧ _decode E = .ok (setCk l) := by
  obtain ⟨x, xs, rfl⟩ := List.exists_cons_of_ne_nil hl
  obtain ⟨d0, rest, hck⟩ := List.exists_cons_of_ne_nil (setCk_ne_nil (x :: xs))
  refine ⟨(chainF 0 ((d0 ^^^ 202) :: rest)).map (fun b => b ^^^ 105), ?_, ?_⟩
  · simp only [_encode, hck]
  · have hne : (chainF 0 ((d0 ^^^ 202) :: rest)).map (fun b => b ^^^ 105) ≠ [] := by
      simp [chainF]
    obtain ⟨e, es, he⟩ := List.exists_cons_of_ne_nil hne
    have hplain : decodePlain ((chainF 0 ((d0 ^^^ 202) :: rest)).map (fun b => b ^^^ 105))
        = setCk (x :: xs) := by
      rw [decodePlain, map_xor_involutive, chainB_chainF]
      show ((d0 ^^^ 202) ^^^ 202) :: rest = setCk (x :: xs)
      rw [xor_xor_cancel, hck]
    rw [he] at hplain ⊢
    simp only [_decode]
    rw [hplain, setCk_check, if_pos rfl]

theorem chainB_ne_nil (p : Nat) (l : List Nat) (h : l ≠ []) : chainB p l ≠ [] := by
  obtain ⟨x, xs, rfl⟩ := List.exists_cons_of_ne_nil h
  simp [chainB]

theorem getLastD_cons_eq (x p : Nat) (l : List Nat) :
    (x :: l).getLastD p = l.getLastD x := by
  cases l <;> simp [List.getLastD]

theorem chainB_append (p : Nat) (xs ys : List Nat) :
    chainB p (xs ++ ys) = chainB p xs ++ chainB (xs.getLastD p) ys := by
  induction xs generalizing p with
  | nil => rfl
  | cons x l ih => rw [List.cons_append, chainB, chainB, ih, getLastD_cons_eq, List.cons_append]

theorem decodePlain_concat (B : List Nat) (b : Nat) (hB : B ≠ []) :
    decodePlain (B ++ [b])
      = decodePlain B ++ [(b ^^^ 105) ^^^ (B.map (fun x => x ^^^ 105)).getLastD 0] := by
  have hmapne : B.map (fun x => x ^^^ 105) ≠ [] := by
    simpa using hB
  obtain ⟨d0, rest, hchain⟩ :=
    List.exists_cons_of_ne_nil (chainB_ne_nil 0 _ hmapne)
  rw [decodePlain, List.map_append, chainB_append, hchain]
  show ((d0 ^^^ 202) :: (rest ++ chainB _ _)) = _
  rw [decodePlain, hchain]
  simp [chainB]

theorem decodePlain_ne_nil (B : List Nat) (hB : B ≠ []) : decodePlain B ≠ [] := by
  have hmapne : B.map (fun x => x ^^^ 105) ≠ [] := by simpa using hB
  obtain ⟨d0, rest, hchain⟩ :=
    List.exists_cons_of_ne_nil (chainB_ne_nil 0 _ hmapne)
  rw [decodePlain, hchain]
  simp

/-- The checksum condition `_decode` verified on a buffer it accepted. -/
theorem decode_ok_cond (B d : List Nat) (h : _decode B = .ok d) :
    _cksum (decodePlain B).tail.dropLast = (decodePlain B).getLastD 0 := by
  match B with
  | [] => exact absurd h (by simp [_decode])
  | x :: xs =>
    simp only [_decode] at h
    split at h
    · assumption
    · exact absurd h (by simp)

theorem decode_cons_eq (x : Nat) (xs : List Nat) :
    _decode (x :: xs) =
      if _cksum (decodePlain (x :: xs)).tail.dropLast = (decodePlain (x :: xs)).getLastD 0
      then .ok (decodePlain (x :: xs)) else .error .badChecksum := rfl

/-- Replacing the last input byte `b` by `b ^^^ m` XORs the last
recovered plaintext byte with `m` and leaves every other byte as it was
(the whitening is elementwise and the un-chaining of byte `i` only reads
input bytes `i` and `i - 1`). -/
theorem decodePlain_tamper (B : List Nat) (m : Nat) (hB : B ≠ []) :
    decodePlain (B.dropLast ++ [B.getLastD 0 ^^^ m])
      = (decodePlain B).dropLast ++ [(decodePlain B).getLastD 0 ^^^ m] := by
  obtain ⟨B', b, hBc⟩ := (List.eq_nil_or_concat B).resolve_left hB
  rw [List.concat_eq_append] at hBc
  subst hBc
  rw [List.dropLast_concat, getLastD_concat]
  rcases eq_or_ne B' [] with rfl | hB'
  · have hd1 : decodePlain ([] ++ [b]) = [(b ^^^ 105) ^^^ 202] := by
      simp [decodePlain, chainB]
    have hd2 : decodePlain ([] ++ [b ^^^ m]) = [((b ^^^ m) ^^^ 105) ^^^ 202] := by
      simp [decodePlain, chainB]
    rw [hd1, hd2, xor_right_swap b m 105, xor_right_swap (b ^^^ 105) m 202]
    rfl
  · have hd1 := decodePlain_concat B' b hB'
    have hd2 := decodePlain_concat B' (b ^^^ m) hB'
    rw [hd1, hd2, xor_right_swap b m 105,
      xor_right_swap (b ^^^ 105) m ((B'.map (fun x => x ^^^ 105)).getLastD 0),
      List.dropLast_concat, getLastD_concat]

theorem packetEncode_ok (pk : PanaPacket) (h1 : pk.ptype < 256)
    (h2 : pk.pdata.length ≤ 255) :
    packetEncode pk = .ok (pk.ptype :: pk.pdata.length :: pk.pdata) := by
  rw [packetEncode, if_neg (by omega), if_neg (by omega)]

/-- Parsing the encoding of a well-formed packet consumes exactly its
bytes and reproduces its type byte and payload. -/
theorem packetParse_append (pk : PanaPacket) (rest : List Nat)
    (hwf : wfPacket pk = true) :
    ∃ pk', packetParse (pk.ptype :: pk.pdata.length :: (pk.pdata ++ rest)) = .ok (pk', rest)
      ∧ pk'.ptype = pk.ptype ∧ pk'.pdata = pk.pdata := by
  simp only [wfPacket, Bool.and_eq_true, Bool.or_eq_true, bne_iff_ne, ne_eq,
    decide_eq_true_eq, List.all_eq_true] at hwf
  obtain ⟨⟨⟨⟨-, -⟩, -⟩, h33⟩, h129⟩ := hwf
  by_cases h : pk.ptype = 129
  · rcases h129 with h129 | h129
    · exact absurd h h129
    · unfold exOk at h129
      split at h129
      next f hf =>
        refine ⟨.status pk.ptype pk.pdata f, ?_, rfl, rfl⟩
        simp [packetParse, read1, h, List.take_left, List.drop_left, hf]
      next => simp at h129
  · refine ⟨.generic pk.ptype pk.pdata, ?_, rfl, rfl⟩
    simp [packetParse, read1, h, h33, List.take_left, List.drop_left]

/-- Encoding a list of well-formed packets succeeds, and parsing the
concatenated bytes back (with any trailing bytes) reproduces the list of
type bytes and payloads. -/
theorem parsePackets_roundtrip (pks : List PanaPacket)
    (h : ∀ pk ∈ pks, wfPacket pk = true) :
    ∃ bs, encodePackets pks = .ok bs
      ∧ ∀ tl, ∃ pks', parsePackets pks.length (bs.flatten ++ tl) = .ok (pks', tl)
        ∧ pks'.map (fun k => (k.ptype, k.pdata)) = pks.map (fun k => (k.ptype, k.pdata)) := by
  induction pks with
  | nil => exact ⟨[], rfl, fun tl => ⟨[], rfl, rfl⟩⟩
  | cons pk rest ih =>
    have hpk := h pk (List.mem_cons_self pk rest)
    obtain ⟨bs, hbs, hall⟩ := ih (fun q hq => h q (List.mem_cons_of_mem pk hq))
    have hpk' := hpk
    simp only [wfPacket, Bool.and_eq_true, decide_eq_true_eq] at hpk'
    have henc := packetEncode_ok pk hpk'.1.1.1.1 hpk'.1.1.1.2
    refine ⟨(pk.ptype :: pk.pdata.length :: pk.pdata) :: bs, ?_, ?_⟩
    · simp [encodePackets, henc, hbs]
    · intro tl
      obtain ⟨pks', hparse, hmap⟩ := hall tl
      obtain ⟨pk', hp, hpt, hpd⟩ := packetParse_append pk (bs.flatten ++ tl) hpk
      refine ⟨pk' :: pks', ?_, ?_⟩
      · show parsePackets (rest.length + 1)
          ((((pk.ptype :: pk.pdata.length :: pk.pdata) :: bs).flatten) ++ tl) = _
        simp only [List.flatten_cons, List.cons_append, List.append_assoc]
        simp [parsePackets, hp, hparse]
      · simp [hmap, hpt, hpd]

/-- The buffer written by `PanasonicBLEParcel.encode` before obfuscation,
with the packet bytes already encoded as `bs`. -/
theorem parcelBody_eq (p : Parcel) (bs : List (List Nat))
    (hn : p.packets.length ≤ 255) (hbs : encodePackets p.packets = .ok bs) :
    parcelBody p
      = .ok ((17 :: p.src.val :: p.dst.val :: p.op.val :: p.packets.length :: bs.flatten)
          ++ [0]) := by
  rw [parcelBody, if_neg (by omega)]
  simp [hbs, List.cons_append]

/-- A parcel whose packets all return `false` from the status
`isinstance` test never replaces the cached snapshot. -/
theorem foldl_no_status (l : List PanaPacket) (st : Option Status)
    (h : ∀ pk ∈ l, pk.isStatus = false) :
    l.foldl
      (fun st pk =>
        match pk with
        | .status _ _ f =>
          some { power := f.power, mode := f.mode, powersave := f.powersave,
                 curtemp := f.curtemp, settemp := f.temp, fanspeed := f.fanspeed }
        | .generic _ _ => st)
      st = st := by
  induction l generalizing st with
  | nil => rfl
  | cons pk rest ih =>
    match pk with
    | .generic a b => exact ih st (fun q hq => h q (List.mem_cons_of_mem _ hq))
    | .status a b f =>
      have := h (.status a b f) (List.mem_cons_self _ _)
      simp [PanaPacket.isStatus] at this

@[simp] theorem mode_fromVal_val (c : MODE) : MODE.fromVal c.val = .ok c := by
  cases c <;> rfl

@[simp] theorem fanspeed_fromVal_val (c : FANSPEED) : FANSPEED.fromVal c.val = .ok c := by
  cases c <;> rfl

@[simp] theorem component_fromVal_val (c : COMPONENT) : COMPONENT.fromVal c.val = .ok c := by
  cases c <;> rfl

@[simp] theorem operation_fromVal_val (c : OPERATION) : OPERATION.fromVal c.val = .ok c := by
  cases c <;> rfl

/-- C1 counterexample: the claim fails on the repository's own
status-request parcel.  Its single packet has payload length 3 ≤ 255 and
`PanasonicBLEParcel.encode` succeeds, but decoding the encoding does not
return an equal parcel — it raises, because the type-129 dispatch hands
the payload `[4, 0, 14]` to the status constructor, whose mode lookup
`MODE((4 >> 5) & 7) = MODE(0)` is a ValueError. -/
theorem C1_counterexample :
    (PanasonicBLEStatusReq.packets.all fun pk => decide (pk.pdata.length ≤ 255)) = true
    ∧ parcelEncode PanasonicBLEStatusReq
      = .ok [178, 75, 74, 72, 73, 200, 203, 207, 207, 193, 82]
    ∧ parcelParse [178, 75, 74, 72, 73, 200, 203, 207, 207, 193, 82]
      = .error .valueError := by
  refine ⟨by decide, by decide, by decide⟩

/-- C1 amended: decoding the encoding reproduces the parcel — same
source, destination, operation and (type byte, payload bytes) sequence —
for every parcel of at most 255 well-formed packets, where well-formed
additionally requires (beyond the claim's payload-length bound) that no
packet has type 33 (its re-parse always raises TypeError) and that any
type-129 payload is accepted by the status constructor. -/
theorem C1_roundtrip_amended (p : Parcel) (hn : p.packets.length ≤ 255)
    (h : ∀ pk ∈ p.packets, wfPacket pk = true) :
    ∃ E q, parcelEncode p = .ok E ∧ parcelParse E = .ok q
      ∧ q.src = p.src ∧ q.dst = p.dst ∧ q.op = p.op
      ∧ q.packets.map (fun k => (k.ptype, k.pdata))
        = p.packets.map (fun k => (k.ptype, k.pdata)) := by
  obtain ⟨bs, hbs, hall⟩ := parsePackets_roundtrip p.packets h
  set prefx : List Nat :=
    17 :: p.src.val :: p.dst.val :: p.op.val :: p.packets.length :: bs.flatten with hprefx
  have hbody := parcelBody_eq p bs hn hbs
  have hne : prefx ++ [0] ≠ [] := by simp
  obtain ⟨E, hE, hdec⟩ := decode_encode (prefx ++ [0]) hne
  set c : Nat := _cksum (prefx ++ [(0 : Nat)]).tail.dropLast with hc
  have hsetck : setCk (prefx ++ [0]) = prefx ++ [c] := by
    rw [setCk, List.dropLast_concat, hc]
  obtain ⟨pks', hparse, hmap⟩ := hall [c]
  have hform : prefx ++ [c]
      = 17 :: p.src.val :: p.dst.val :: p.op.val :: p.packets.length :: (bs.flatten ++ [c]) := by
    simp [hprefx, List.cons_append]
  refine ⟨E, ⟨p.src, p.dst, p.op, pks'⟩, ?_, ?_, rfl, rfl, rfl, by simpa using hmap⟩
  · rw [parcelEncode, hbody]
    exact hE
  · rw [parcelParse]
    rw [hdec, hsetck, hform]
    simp [read1, hparse]

/-- C1 witness: the amended round trip at the concrete set-power-style
parcel APP → I_UNIT1 SET with the single packet (65, [3]). -/
theorem C1_witness :
    ∃ E q, parcelEncode ({ src := .APP, dst := .I_UNIT1, op := .SET,
                           packets := [PanaPacket.generic 65 [3]] } : Parcel) = .ok E
      ∧ parcelParse E = .ok q
      ∧ q.src = COMPONENT.APP ∧ q.dst = COMPONENT.I_UNIT1 ∧ q.op = OPERATION.SET
      ∧ q.packets.map (fun k => (k.ptype, k.pdata))
        = [PanaPacket.generic 65 [3]].map (fun k => (k.ptype, k.pdata)) :=
  C1_roundtrip_amended { src := .APP, dst := .I_UNIT1, op := .SET,
                         packets := [PanaPacket.generic 65 [3]] } (by decide) (by decide)

/-- C2 counterexample: take the valid plaintext of the power-on parcel,
`[17, 249, 1, 0, 1, 65, 1, 3, 0]`.  Its obfuscated form is
`[178, 75, 74, 74, 75, 10, 11, 8, 72]`; flipping bit 7 of the byte at
index 7 — the encoded position of the single packet-payload byte, not
the sync byte — yields a buffer that `_decode` happily accepts (the two
affected plaintext bytes each move by 128, so the mod-256 sum is
unchanged) and that even parses to a full parcel whose payload byte has
become 131 instead of 3.  The claim's checksum failure does not occur. -/
theorem C2_counterexample :
    _encode [17, 249, 1, 0, 1, 65, 1, 3, 0] = .ok [178, 75, 74, 74, 75, 10, 11, 8, 72]
    ∧ [178, 75, 74, 74, 75, 10, 11, 136, 72]
      = List.set [178, 75, 74, 74, 75, 10, 11, 8, 72] 7 (8 ^^^ 128)
    ∧ _decode [178, 75, 74, 74, 75, 10, 11, 136, 72]
      = .ok [17, 249, 1, 0, 1, 65, 1, 131, 192]
    ∧ parcelParse [178, 75, 74, 74, 75, 10, 11, 136, 72]
      = .ok { src := .APP, dst := .I_UNIT1, op := .SET,
              packets := [PanaPacket.generic 65 [131]] } := by
  refine ⟨by decide, by decide, by decide, by decide⟩

/-- C2 amended: tampering is only guaranteed to be detected at the final
byte — XORing the last byte of any buffer that decodes successfully with
any nonzero mask makes `_decode` fail with the checksum error.  (Flips
at other positions can cancel in the modular sum, as the counterexample
shows for a payload-region byte.) -/
theorem C2_lastbyte_amended (B d : List Nat) (m : Nat) (hm : m ≠ 0)
    (h : _decode B = .ok d) :
    _decode (B.dropLast ++ [B.getLastD 0 ^^^ m]) = .error .badChecksum := by
  have hBne : B ≠ [] := by
    rintro rfl
    simp [_decode] at h
  have hcond := decode_ok_cond B d h
  have htam := decodePlain_tamper B m hBne
  have hTne : B.dropLast ++ [B.getLastD 0 ^^^ m] ≠ [] := by simp
  obtain ⟨t, ts, hT⟩ := List.exists_cons_of_ne_nil hTne
  rw [hT] at htam ⊢
  rw [decode_cons_eq, htam]
  rw [if_neg]
  rw [tail_dropLast, List.dropLast_concat, ← tail_dropLast, getLastD_concat, hcond]
  exact fun hx => (xor_ne_self ((decodePlain B).getLastD 0) m hm) hx.symm

/-- C2 witness: the amended statement at the one-byte buffer `[163]`
(which decodes to `[0]`) with mask 1. -/
theorem C2_witness :
    _decode (List.dropLast [163] ++ [List.getLastD [163] 0 ^^^ 1])
      = .error .badChecksum :=
  C2_lastbyte_amended [163] [0] 1 (by decide) (by decide)

/-- C3: parsing the literal 13-byte payload
`[0x21, 0x60, 0, 0, 99, 101, 0, 0, 0, 0, 0, 1, 0]` as a type-129 status
packet succeeds and yields exactly power bit 1 (true), mode heat
(`(0x21 >> 5) & 7 = 1`), fan speed high (`(0x60 >> 5) & 7 = 3`), set
temperature `(99 - 70) / 2 = 14.5`, room temperature
`(101 - 70) / 2 = 15.5` (present because the length exceeds 12), and
power-save `D[7] = 0` (false). -/
theorem C3_status_decode :
    packetParse ([129, 13] ++ [33, 96, 0, 0, 99, 101, 0, 0, 0, 0, 0, 1, 0])
      = .ok (.status 129 [33, 96, 0, 0, 99, 101, 0, 0, 0, 0, 0, 1, 0]
          { power := 1, mode := .heat, temp := 14.5, fanspeed := .high,
            powersave := 0, curtemp := 15.5 }, []) := by
  norm_num [packetParse, read1, statusInit, listGet, MODE.fromVal, FANSPEED.fromVal]

/-- C4 counterexample: a stream holding the type byte 5, the declared
length 3, but only one payload byte.  `fd.read(3)` silently returns the
single byte, so parse succeeds with a payload shorter than its declared
length byte instead of failing with a truncated-input error. -/
theorem C4_counterexample :
    packetParse [5, 3, 1] = .ok (.generic 5 [1], []) := by
  decide

/-- C4 amended: packet decode reads one type byte and one length byte,
failing with an index error only when fewer than two bytes remain; the
payload read returns *up to* L bytes, so a stream with at least two
bytes always yields a packet (for non-special types) whose payload is
the first `min L (remaining)` bytes. -/
theorem C4_packet_read_amended :
    (∀ t pl : Nat, ∀ s2 : List Nat, t ≠ 129 → t ≠ 33 →
      packetParse (t :: pl :: s2) = .ok (.generic t (s2.take pl), s2.drop pl))
    ∧ packetParse [] = .error .indexError
    ∧ (∀ t : Nat, packetParse [t] = .error .indexError) := by
  refine ⟨?_, rfl, ?_⟩
  · intro t pl s2 h129 h33
    simp [packetParse, read1, h129, h33]
  · intro t
    simp [packetParse, read1]

/-- C4 witness: the amended statement at the stream `[7, 2, 9]` (type 7,
declared length 2, a single remaining byte) and at the one-byte stream
`[12]`. -/
theorem C4_witness :
    packetParse [7, 2, 9] = .ok (.generic 7 [9], [])
    ∧ packetParse [12] = .error .indexError :=
  ⟨C4_packet_read_amended.1 7 2 [9] (by decide) (by decide),
   C4_packet_read_amended.2.2 12⟩

/-- C5: parsing any type-33 packet raises TypeError, because
`PanasonicBLEPacket.parse` calls
`PanasonicBLEPacketOutdoorTemp(ptype, pdata)` but that class's
`__init__` takes no such parameters (and its body references unbound
names) — the outdoor-temperature variant never constructs, contradicting
the claimed `payload[1] / 10` behaviour.  The claim's other half holds:
any type other than 129 and 33 yields a generic packet carrying the raw
payload unchanged, as evaluated here at type 77. -/
theorem C5_outdoor_temp_bug :
    packetParse [33, 2, 0, 123] = .error .typeError
    ∧ packetParse [77, 2, 0, 123] = .ok (.generic 77 [0, 123], []) := by
  refine ⟨by decide, by decide⟩

/-- C7 counterexample: buffers shorter than 3 bytes are not rejected.
`_encode` succeeds on the 2-byte buffer `[0, 0]`, and `_decode` returns
data for the 1-byte buffer `[163]` (its checksum test compares the empty
interior sum 0 against the recovered byte `163 ^ 105 ^ 202 = 0` and
passes). -/
theorem C7_counterexample :
    _encode [0, 0] = .ok [163, 163] ∧ _decode [163] = .ok [0] := by
  refine ⟨by decide, by decide⟩

/-- C7 amended: only the empty buffer makes the two transforms fail
(with an index error, from `data[-1]` and `data[0]` respectively).
One- and two-byte buffers are not rejected: `_encode` succeeds on every
1-byte buffer — always producing `[163]`, since the single byte is
overwritten by the empty-interior checksum 0 — and `_decode` returns
data whenever the checksum test passes, e.g. on `[163, 163]`. -/
theorem C7_short_buffer_amended :
    _encode [] = .error .indexError
    ∧ _decode [] = .error .indexError
    ∧ (∀ b : Nat, _encode [b] = .ok [163])
    ∧ _decode [163, 163] = .ok [0, 0] := by
  refine ⟨rfl, rfl, ?_, by decide⟩
  intro b
  simp [_encode, setCk, _cksum, chainF]

/-- C7 witness: the amended statement's universally quantified clause at
the 1-byte buffer `[7]`. -/
theorem C7_witness : _encode [7] = .ok [163] :=
  C7_short_buffer_amended.2.2.1 7

/-- C8 counterexample: 50 is outside the configured range
`[MIN_TEMP, MAX_TEMP] = [16, 32]`, yet the set-temperature command
performs no validation: `PanasonicBLETemp(50)` builds the parcel with
payload `[9, 0, 170, 0]` (the out-of-range value encoded unchanged as
`int(50 * 2 + 70) = 170`, neither clamped nor rejected) and the
subsequent encode for the transport write succeeds. -/
theorem C8_counterexample :
    ¬((MIN_TEMP : ℚ) ≤ 50 ∧ (50 : ℚ) ≤ MAX_TEMP)
    ∧ PanasonicBLETemp 50
      = .ok { src := .APP, dst := .I_UNIT1, op := .SET,
              packets := [PanaPacket.generic 76 [9, 0, 170, 0]] }
    ∧ exOk ((PanasonicBLETemp 50).bind parcelEncode) = true := by
  refine ⟨by norm_num [MIN_TEMP, MAX_TEMP], ?_, ?_⟩
  · have h170 : (50 * 2 + 70 : ℚ) = ((170 : Nat) : ℚ) := by norm_num
    rw [PanasonicBLETemp, h170]
    norm_num [pyInt, mkByte]
    rfl
  · have h170 : (50 * 2 + 70 : ℚ) = ((170 : Nat) : ℚ) := by norm_num
    rw [PanasonicBLETemp, h170]
    norm_num [pyInt, mkByte]
    rfl

/-- C8 amended: the session layer performs no range validation at all —
for every requested temperature whose encoded byte `int(temp * 2 + 70)`
fits in a byte (which includes every out-of-range request between
-35 and 92.5), the command builds the parcel with that byte unchanged
and its encoding for the transport write succeeds.  `MIN_TEMP` and
`MAX_TEMP` are never consulted on this path. -/
theorem C8_no_validation_amended (temp : ℚ) (h0 : 0 ≤ pyInt (temp * 2 + 70))
    (h1 : pyInt (temp * 2 + 70) < 256) :
    PanasonicBLETemp temp
      = .ok { src := .APP, dst := .I_UNIT1, op := .SET,
              packets := [PanaPacket.generic 76 [9, 0, (pyInt (temp * 2 + 70)).toNat, 0]] }
    ∧ ∃ E, parcelEncode ({ src := .APP, dst := .I_UNIT1, op := .SET,
                           packets := [PanaPacket.generic 76
                             [9, 0, (pyInt (temp * 2 + 70)).toNat, 0]] } : Parcel)
        = .ok E := by
  refine ⟨?_, ⟨_, rfl⟩⟩
  simp [PanasonicBLETemp, mkByte, h0, h1]

/-- C8 witness: the amended statement at the out-of-range request 50. -/
theorem C8_witness :
    PanasonicBLETemp 50
      = .ok { src := .APP, dst := .I_UNIT1, op := .SET,
              packets := [PanaPacket.generic 76 [9, 0, (pyInt (50 * 2 + 70)).toNat, 0]] }
    ∧ ∃ E, parcelEncode ({ src := .APP, dst := .I_UNIT1, op := .SET,
                           packets := [PanaPacket.generic 76
                             [9, 0, (pyInt (50 * 2 + 70)).toNat, 0]] } : Parcel)
        = .ok E :=
  C8_no_validation_amended 50 (by norm_num [pyInt]) (by norm_num [pyInt])

/-- C9: the notification handler is total on the cached snapshot (the
blanket `except Exception` means no exception reaches the caller, which
the model renders as `onNotification` being a total function), it leaves
the previous snapshot untouched whenever the bytes fail to decode, and
likewise whenever the decoded parcel contains no status-type packet
(unrecognized packet types parse as generic packets); so the snapshot is
replaced only on a successful decode of a status-type packet. -/
theorem C9_notification_resilience (prev : Option Status) (data : List Nat) :
    (exOk (parcelParse data) = false → onNotification prev data = prev)
    ∧ (∀ parcel, parcelParse data = .ok parcel →
        (∀ pk ∈ parcel.packets, pk.isStatus = false) → onNotification prev data = prev) := by
  constructor
  · intro h
    rw [onNotification.eq_def]
    split
    · rfl
    · next parcel hp =>
      rw [hp] at h
      simp [exOk] at h
  · intro parcel hp hall
    rw [onNotification.eq_def]
    split
    · rfl
    · next q hq =>
      rw [hq] at hp
      have hqp : q = parcel := by injection hp
      subst hqp
      exact foldl_no_status q.packets prev hall

/-- C9 witness: the theorem at the undecodable buffer `[0]` (checksum
failure) and at the power-on parcel bytes, which decode to a parcel
whose only packet is the generic (non-status) type 65. -/
theorem C9_witness :
    onNotification none [0] = none
    ∧ onNotification (some { power := 1, mode := .heat, powersave := 0,
                             curtemp := 0, settemp := 0, fanspeed := .auto })
        [178, 75, 74, 74, 75, 10, 11, 8, 72]
      = some { power := 1, mode := .heat, powersave := 0,
               curtemp := 0, settemp := 0, fanspeed := .auto } :=
  ⟨(C9_notification_resilience none [0]).1 (by decide),
   (C9_notification_resilience _ _).2
     { src := .APP, dst := .I_UNIT1, op := .SET, packets := [.generic 65 [3]] }
     (by decide) (by decide)⟩

/-- C10: the packet-count byte written at offset 4 of the plaintext
buffer is the exact number of packets whenever the buffer is laid out,
and a parcel of more than 255 packets makes encode fail with
OverflowError (from `len(packets).to_bytes()`) rather than emitting a
wrapped or truncated count. -/
theorem C10_packet_count (p : Parcel) :
    (255 < p.packets.length → parcelEncode p = .error .overflowError)
    ∧ (∀ b, parcelBody p = .ok b → b[4]? = some p.packets.length) := by
  constructor
  · intro h
    rw [parcelEncode, parcelBody, if_pos (by omega)]
    rfl
  · intro b hb
    rw [parcelBody] at hb
    split at hb
    · exact absurd hb (by simp)
    · match henc : encodePackets p.packets with
      | .error e =>
        rw [henc] at hb
        exact absurd hb (by simp)
      | .ok bs =>
        rw [henc] at hb
        simp only [exc_bind_ok] at hb
        have hb' : 17 :: p.src.val :: p.dst.val :: p.op.val :: p.packets.length
            :: (bs.flatten ++ [0]) = b := by
          injection hb
        rw [← hb']
        simp

set_option maxRecDepth 4096 in
/-- C10 witness: the theorem at a parcel of 256 empty packets (encode
overflows) and at the single-packet set-power parcel, whose laid-out
buffer `[17, 249, 1, 0, 1, 65, 1, 3, 0]` carries the count 1 at offset
4. -/
theorem C10_witness :
    parcelEncode { src := .APP, dst := .I_UNIT1, op := .SET,
                   packets := List.replicate 256 (PanaPacket.generic 0 []) }
      = .error .overflowError
    ∧ ([17, 249, 1, 0, 1, 65, 1, 3, 0] : List Nat)[4]? = some 1 :=
  ⟨(C10_packet_count _).1 (by simp),
   (C10_packet_count { src := .APP, dst := .I_UNIT1, op := .SET,
                       packets := [PanaPacket.generic 65 [3]] }).2
     [17, 249, 1, 0, 1, 65, 1, 3, 0] (by decide)⟩

end PanasonicHC
